import Mathlib

/-
Verification development for the ipc coordination core of katalog-lib.

The Rust sources under src/ipc/src are shallowly embedded:
pure logic becomes Lean functions; every effectful transport call
(node creation, channel creation, subscriber-slot creation, loan,
send, notify, wait, receive, thread spawn) is represented by an
oracle field recording the outcome the transport produced for that
call, and each Rust function becomes a Lean function from its oracle
record to the value the Rust function returns, together with the
ghost observations the properties talk about (whether a message was
sent, which sleeps were requested, the action trace of the
subscriber thread, the final value of the liveness flag).

Durations are rational numbers of seconds.
-/

namespace KatalogIpc

/-- Error raised when converting a `Path` to a `StaticPath`
(src/ipc/src/static_path.rs, `FromPathError`). -/
inductive FromPathError where
  /-- The path is longer than the capacity `N`. Fields mirror the
  source: `at_most` is the bound, `len` the attempted length. -/
  | TooLong (at_most : Nat) (len : Nat)
  /-- The path was not utf-8 on a windows platform. -/
  | NotUtf8
  deriving DecidableEq, Repr

/-- `StaticPath<N>` (src/ipc/src/static_path.rs): a `StaticVec<u8, N>`
holding the byte data of a path; the vector invariant is length at
most `N`. On the unix family a path is exactly its os-string bytes,
modelled as a list of byte values. -/
structure StaticPath (N : Nat) where
  /-- Byte data of path. -/
  data : List Nat
  /-- Capacity invariant of `StaticVec<u8, N>`. -/
  data_le : data.length ≤ N

/-- `TryFrom<&Path> for StaticPath<N>` on the unix family
(src/ipc/src/static_path.rs lines 79-99): take the os-string bytes of
the path; `StaticVec::try_from` succeeds exactly when the byte count
fits in `N`, otherwise the conversion fails with
`FromPathError::TooLong { at_most: N, len: bytes.len() }`. -/
def StaticPath.tryFromPath (N : Nat) (bytes : List Nat) :
    Except FromPathError (StaticPath N) :=
  if h : bytes.length ≤ N then .ok ⟨bytes, h⟩
  else .error (.TooLong N bytes.length)

/-- `StaticPath::try_into_path` on the unix family
(src/ipc/src/static_path.rs lines 46-77): the infallible `From`
conversion wraps the stored bytes back into a path, so the fallible
wrapper always succeeds with exactly the stored bytes. -/
def StaticPath.try_into_path {N : Nat} (p : StaticPath N) :
    Except Empty (List Nat) :=
  .ok p.data

/-- C8: for every path whose encoded byte length is at most N,
converting the path to a `StaticPath<N>` succeeds and converting the
result back yields a path equal to the original. (On the unix family
modelled here the utf-8 proviso of the claim is vacuous: paths are
raw os-string bytes.) -/
theorem static_path_roundtrip (N : Nat) (bytes : List Nat)
    (h : bytes.length ≤ N) :
    ∃ sp : StaticPath N,
      StaticPath.tryFromPath N bytes = .ok sp ∧
        sp.try_into_path = .ok bytes := by
  refine ⟨⟨bytes, h⟩, ?_, rfl⟩
  simp [StaticPath.tryFromPath, h]

theorem static_path_roundtrip_witness :
    ([0, 1, 255] : List Nat).length ≤ 4 ∧
      ∃ sp : StaticPath 4,
        StaticPath.tryFromPath 4 [0, 1, 255] = .ok sp ∧
          sp.try_into_path = .ok [0, 1, 255] :=
  ⟨by decide, static_path_roundtrip 4 [0, 1, 255] (by decide)⟩

/-- C9: for every path whose encoded byte length exceeds N,
constructing a `StaticPath<N>` fails with the length-exceeded error
reporting both the attempted length and the bound N. -/
theorem static_path_too_long (N : Nat) (bytes : List Nat)
    (h : N < bytes.length) :
    StaticPath.tryFromPath N bytes = .error (.TooLong N bytes.length) := by
  simp [StaticPath.tryFromPath, Nat.not_le.mpr h]

theorem static_path_too_long_witness :
    2 < ([7, 8, 9] : List Nat).length ∧
      StaticPath.tryFromPath 2 [7, 8, 9] = .error (.TooLong 2 3) :=
  ⟨by decide, static_path_too_long 2 [7, 8, 9] (by decide)⟩

/-- Event id used for notifying the subscriber
(src/ipc/src/single_process.rs line 92). -/
def NOTIFY_EVENT : Nat := 11

/-- Event id used for asking the subscriber to vacate
(src/ipc/src/single_process.rs line 95). -/
def REPLACE_EVENT : Nat := 13

/-- Failure kinds of the publish-subscribe `open_or_create` call,
split by whether the service already exists with an incompatible
shape, since claim C4 distinguishes that kind. -/
inductive PubSubFail where
  /-- Service exists with a different shape (incompatible type,
  messaging pattern or attributes). -/
  | incompatibleShape
  /-- Any other open-or-create failure. -/
  | otherFail
  deriving DecidableEq, Repr

/-- The tagged-union error type of the entry points: one variant per
`From<...>` bound listed on `single_process_` and `subscribe_only_`
(src/ipc/src/single_process.rs), plus a caller-side variant for the
message producer and the receive handler, which fail with the same
generic error type `E` in the source. -/
inductive Err where
  /-- `std::io::Error` (thread spawn). -/
  | ioErr
  /-- `ListenerCreateError`. -/
  | listenerCreate
  /-- `ReceiveError`. -/
  | receiveErr
  /-- `NodeCreationFailure`. -/
  | nodeCreation
  /-- `NodeWaitFailure`. -/
  | nodeWait
  /-- `NotifierCreateError`. -/
  | notifierCreate
  /-- `NotifierNotifyError`. -/
  | notifierNotify
  /-- `PublisherCreateError`. -/
  | publisherCreate
  /-- `LoanError`. -/
  | loanFailed
  /-- `SendError`. -/
  | sendFailed
  /-- `EventOpenOrCreateError`. -/
  | eventOpenOrCreate
  /-- `PublishSubscribeOpenOrCreateError`. -/
  | pubSubOpenOrCreate (kind : PubSubFail)
  /-- `SemanticStringError` (node name validation). -/
  | semanticString
  /-- `ServiceNameError` (service name validation). -/
  | serviceNameErr
  /-- `SubscriberCreateError` other than
  `ExceedsMaxSupportedSubscribers`. -/
  | subscriberCreateOther
  /-- `SubscribeOnlyTimeoutError { timeout }`
  (src/ipc/src/single_process.rs lines 266-271), carrying the
  configured timeout in seconds. -/
  | subscribeOnlyTimeout (timeout : ℚ)
  /-- Caller-side failure of the message producer or of the receive
  handler, tagged by an arbitrary code. -/
  | handler (code : Nat)
  deriving DecidableEq, Repr

/-- Outcome of one `service.subscriber_builder().create()` call. -/
inductive SubCreateRes where
  /-- A subscriber port was created: the slot was free. -/
  | ok
  /-- `SubscriberCreateError::ExceedsMaxSupportedSubscribers`:
  the single subscriber slot is occupied. -/
  | occupied
  /-- Any other `SubscriberCreateError`. -/
  | otherFail
  deriving DecidableEq, Repr

/-- Oracle for one run of `build_service`
(src/ipc/src/single_process.rs lines 135-160): the outcomes the
transport produces for the first and the second `build_serice_`
attempt. -/
structure BuildServiceRun where
  /-- Outcome of the first `build_serice_` call. -/
  firstAttempt : Except PubSubFail Unit
  /-- Outcome of the retried `build_serice_` call, consulted only
  when the first one failed. -/
  secondAttempt : Except PubSubFail Unit
  deriving Repr

/-- `build_service` (src/ipc/src/single_process.rs lines 135-160):
try `build_serice_`; `or_else` on ANY error runs the dead-node sweep
over the global registry and retries `build_serice_` once. Returns
the final result, whether the sweep ran, and how many creation
attempts were made. -/
def build_service (r : BuildServiceRun) :
    Except PubSubFail Unit × Bool × Nat :=
  match r.firstAttempt with
  | .ok _ => (.ok (), false, 1)
  | .error _ => (r.secondAttempt, true, 2)

/-- C4 counterexample: when the first creation attempt fails because
the service already exists with a different shape, the code still
runs the sweep and retries (the `or_else` closure ignores the error
kind), contradicting the claim that no sweep or retry happens for
that failure kind. -/
theorem build_service_sweeps_on_shape_mismatch :
    build_service ⟨.error .incompatibleShape, .ok ()⟩ = (.ok (), true, 2) :=
  rfl

/-- C4 amended: the sweep and the single retry run exactly when the
first creation attempt fails, regardless of the failure kind, and in
every case at most one retry (at most two attempts) is made. -/
theorem build_service_sweep_iff (r : BuildServiceRun) :
    ((build_service r).2.1 = true ↔ ∃ e, r.firstAttempt = .error e) ∧
      (build_service r).2.2 ≤ 2 := by
  unfold build_service
  rcases r with ⟨fst, snd⟩
  cases fst <;> simp

/-- Oracle outcomes for one run of `publish_input`
(src/ipc/src/single_process.rs lines 228-263), in call order. -/
structure PublishRun (M : Type) where
  /-- `service.publisher_builder().create()`. -/
  publisherCreate : Except Err Unit
  /-- `event_service.notifier_builder()...create()`. -/
  notifierCreate : Except Err Unit
  /-- `publisher.loan_uninit()`. -/
  loan : Except Err Unit
  /-- `input()`: the caller-supplied message producer. -/
  input : Except Err M
  /-- `message.send()`. -/
  send : Except Err Unit
  /-- Whether `notifier.notify()` succeeded. -/
  notifyOk : Bool
  /-- Whether the advisory `node.wait(...)` succeeded. -/
  waitOk : Bool
  deriving Repr

/-- Observable outcome of a `publish_input` run: the returned value,
whether the message was sent to the subscriber, and the advisory
wait interval in seconds when the wait was reached. -/
structure PublishOutcome where
  /-- The value `publish_input` returns. -/
  result : Except Err Unit
  /-- Whether `message.send()` succeeded, i.e. a message was
  delivered to the data channel. -/
  sent : Bool
  /-- The duration handed to the advisory `node.wait` call, if
  reached. -/
  waitDuration : Option ℚ
  deriving Repr

/-- `publish_input` (src/ipc/src/single_process.rs lines 228-263):
create the publisher, create the notifier with default event id
`NOTIFY_EVENT`, loan a buffer, run the message producer, write and
send; then notify, falling back to a 200 ms wait when notification
fails and a 50 ms wait when it succeeds; a wait failure is logged
and the function still returns success. -/
def publish_input {M : Type} (run : PublishRun M) : PublishOutcome :=
  match run.publisherCreate with
  | .error e => ⟨.error e, false, none⟩
  | .ok _ =>
  match run.notifierCreate with
  | .error e => ⟨.error e, false, none⟩
  | .ok _ =>
  match run.loan with
  | .error e => ⟨.error e, false, none⟩
  | .ok _ =>
  match run.input with
  | .error e => ⟨.error e, false, none⟩
  | .ok _ =>
  match run.send with
  | .error e => ⟨.error e, false, none⟩
  | .ok _ =>
    ⟨.ok (), true, some (if run.notifyOk then 1/20 else 1/5)⟩

/-- A message is reported sent only when `publish_input` returns
success. -/
theorem publish_input_sent_imp_ok {M : Type} (run : PublishRun M) :
    (publish_input run).sent = true → (publish_input run).result = .ok () := by
  rcases run with ⟨pc, nc, lo, inp, sd, no, wo⟩
  cases pc <;> cases nc <;> cases lo <;> cases inp <;> cases sd <;>
    simp [publish_input]

/-- C6: whenever the send path of `publish_input` succeeds
(publisher creation, notifier creation, loan, message production and
send all succeed), the function returns success regardless of the
notify and wait outcomes, the message is sent, and the advisory wait
interval is 200 ms (1/5 s) when notification failed and 50 ms
(1/20 s) when it succeeded; a wait failure is never propagated. -/
theorem publish_input_success_after_send {M : Type} (run : PublishRun M)
    (m : M)
    (hpc : run.publisherCreate = .ok ()) (hnc : run.notifierCreate = .ok ())
    (hlo : run.loan = .ok ()) (hin : run.input = .ok m)
    (hsd : run.send = .ok ()) :
    publish_input run =
      ⟨.ok (), true, some (if run.notifyOk then 1/20 else 1/5)⟩ := by
  rcases run with ⟨pc, nc, lo, inp, sd, no, wo⟩
  simp_all [publish_input]

theorem publish_input_success_after_send_witness :
    publish_input
        (⟨.ok (), .ok (), .ok (), .ok 7, .ok (), false, false⟩ :
          PublishRun Nat) =
      ⟨.ok (), true, some (1/5)⟩ := by
  have h := publish_input_success_after_send
    (⟨.ok (), .ok (), .ok (), .ok 7, .ok (), false, false⟩ : PublishRun Nat)
    7 rfl rfl rfl rfl rfl
  simpa using h

/-- Oracle outcomes for one run of `single_process_`
(src/ipc/src/single_process.rs lines 351-400), in call order. -/
structure SingleProcessRun (M : Type) where
  /-- `NodeName::new(node_name)` succeeded. -/
  nodeNameOk : Bool
  /-- `ServiceName::new(service_name)` succeeded. -/
  serviceNameOk : Bool
  /-- `build_node` succeeded. -/
  nodeCreateOk : Bool
  /-- The two `build_serice_` attempts inside `build_service`. -/
  svc : BuildServiceRun
  /-- `build_event_service` succeeded. -/
  eventSvcOk : Bool
  /-- `service.subscriber_builder().create()`. -/
  subCreate : SubCreateRes
  /-- `std::thread::Builder::spawn` inside
  `create_subscriber_thread` succeeded. -/
  spawnOk : Bool
  /-- Oracle of the `publish_input` call taken on the occupied
  branch. -/
  pub : PublishRun M

/-- Return value of `single_process_`: `ControlFlow::Continue` with
the handle when this process became the subscriber,
`ControlFlow::Break(())` when the input was delegated to an existing
subscriber. -/
inductive SingleProcessFlow where
  /-- `ControlFlow::Continue(SubscriberHandle)`. -/
  | becameSubscriber
  /-- `ControlFlow::Break(())`. -/
  | delegated
  deriving DecidableEq, Repr

/-- The occupied-slot branch of `single_process_`
(src/ipc/src/single_process.rs lines 394-397): propagate a
`publish_input` error, otherwise return `ControlFlow::Break(())`;
the sent flag is carried through unchanged. -/
def delegateOutcome (out : PublishOutcome) :
    Except Err SingleProcessFlow × Bool :=
  match out with
  | ⟨.ok _, sent, _⟩ => (.ok .delegated, sent)
  | ⟨.error e, sent, _⟩ => (.error e, sent)

/-- If the occupied-slot branch returns an error, no message was
sent. -/
theorem delegate_error_not_sent {M : Type} (pub : PublishRun M) (e : Err)
    (h : (delegateOutcome (publish_input pub)).1 = .error e) :
    (delegateOutcome (publish_input pub)).2 = false := by
  have hs := publish_input_sent_imp_ok pub
  generalize hp : publish_input pub = out at hs h ⊢
  rcases out with ⟨r, s, w⟩
  cases r with
  | ok v => simp [delegateOutcome] at h
  | error e2 =>
      cases s with
      | false => simp [delegateOutcome]
      | true => simp at hs

/-- `single_process_` (src/ipc/src/single_process.rs lines 351-400):
validate the names, build the node, the data service (with the sweep
and retry of `build_service`) and the event service, then attempt
subscriber-slot creation; on success spawn the subscriber thread, on
an occupied slot run `publish_input`, on any other creation failure
surface the error. The second component records whether a message
was sent to an existing subscriber. -/
def single_process_ {M : Type} (run : SingleProcessRun M) :
    Except Err SingleProcessFlow × Bool :=
  if !run.nodeNameOk then (.error .semanticString, false)
  else if !run.serviceNameOk then (.error .serviceNameErr, false)
  else if !run.nodeCreateOk then (.error .nodeCreation, false)
  else
    match (build_service run.svc).1 with
    | .error k => (.error (.pubSubOpenOrCreate k), false)
    | .ok _ =>
      if !run.eventSvcOk then (.error .eventOpenOrCreate, false)
      else
        match run.subCreate with
        | .ok =>
            if run.spawnOk then (.ok .becameSubscriber, false)
            else (.error .ioErr, false)
        | .occupied => delegateOutcome (publish_input run.pub)
        | .otherFail => (.error .subscriberCreateOther, false)

/-- C1: whenever `single_process_` returns an error, no message has
been delivered to any existing subscriber: every failure on the
publish path (producer failure, loan failure, send failure) happens
before a successful send, and production and sending happen only
after successful channel provisioning, inside the occupied-slot
branch. -/
theorem single_process_error_no_delivery {M : Type}
    (run : SingleProcessRun M) (e : Err)
    (h : (single_process_ run).1 = .error e) :
    (single_process_ run).2 = false := by
  rcases run with ⟨nn, sn, nc, ⟨fst, snd⟩, ev, sub, sp, pub⟩
  unfold single_process_ at h ⊢
  cases nn <;> cases sn <;> cases nc <;> cases ev <;>
    cases fst <;> cases snd <;> cases sub <;> cases sp <;>
    first
      | rfl
      | (simp_all [build_service];
         try exact delegate_error_not_sent pub e h)

theorem single_process_error_no_delivery_witness :
    (single_process_
        (⟨true, true, true, ⟨.ok (), .ok ()⟩, true, .occupied,
          true, ⟨.ok (), .ok (), .ok (), .ok 3, .error .sendFailed,
            true, true⟩⟩ :
          SingleProcessRun Nat)).2 = false :=
  single_process_error_no_delivery
    (⟨true, true, true, ⟨.ok (), .ok ()⟩, true, .occupied,
      true, ⟨.ok (), .ok (), .ok (), .ok 3, .error .sendFailed,
        true, true⟩⟩ :
      SingleProcessRun Nat)
    .sendFailed rfl

/-- One wake cycle of the subscriber loop
(src/ipc/src/single_process.rs lines 194-211): the outcome of
`timed_wait_all` (`none` when it returned an error, otherwise the
event ids handed to the callback), the messages `receive()` yields
this cycle paired with the handler outcome for each (`none` means
the handler returned Ok, `some code` the handler error), and whether
the receive call after the listed messages fails instead of
returning empty. -/
structure Cycle (M : Type) where
  /-- `listener.timed_wait_all(callback, 200 ms)` outcome. -/
  wait : Option (List Nat)
  /-- Messages received during the drain, with handler outcomes. -/
  msgs : List (M × Option Nat)
  /-- Whether the terminating `receive()` fails rather than
  returning `None`. -/
  recvFail : Bool

/-- Observable actions of the subscriber thread. -/
inductive ThreadAction (M : Type) where
  /-- The loop entered `timed_wait_all`. -/
  | waited
  /-- The caller-supplied handler was invoked on a message. -/
  | handled (m : M)
  /-- The subscriber end of the data channel was dropped, releasing
  the slot. -/
  | droppedSubscriber
  deriving DecidableEq, Repr

/-- The `timed_wait_all` callback (src/ipc/src/single_process.rs
lines 197-202) applied to every fired event in order: an event equal
to `REPLACE_EVENT` stores false into the liveness flag. -/
def applyEvents (keepAlive : Bool) (evs : List Nat) : Bool :=
  evs.foldl (fun ka e => if e = REPLACE_EVENT then false else ka) keepAlive

theorem applyEvents_false (evs : List Nat) :
    applyEvents false evs = false := by
  induction evs with
  | nil => rfl
  | cons e rest ih =>
      simp only [applyEvents, List.foldl_cons] at ih ⊢
      split <;> exact ih

theorem applyEvents_true (evs : List Nat) :
    applyEvents true evs = if REPLACE_EVENT ∈ evs then false else true := by
  induction evs with
  | nil => rfl
  | cons e rest ih =>
      by_cases he : e = REPLACE_EVENT
      · subst he
        have h1 : applyEvents true (REPLACE_EVENT :: rest) =
            applyEvents false rest := by
          unfold applyEvents
          rw [List.foldl_cons, if_pos rfl]
        rw [h1, applyEvents_false, if_pos (List.mem_cons_self _ _)]
      · have h1 : applyEvents true (e :: rest) = applyEvents true rest := by
          unfold applyEvents
          rw [List.foldl_cons, if_neg he]
        rw [h1, ih]
        by_cases hm : REPLACE_EVENT ∈ rest
        · rw [if_pos hm, if_pos (List.mem_cons_of_mem _ hm)]
        · rw [if_neg hm, if_neg ?_]
          intro hcon
          rcases List.mem_cons.mp hcon with h | h
          · exact he h.symm
          · exact hm h

/-- The inner drain of one wake cycle
(src/ipc/src/single_process.rs lines 207-210): receive messages
until empty, invoking the handler once per message; a handler error
or a receive error aborts with that error. Returns the aborting
error, if any, and the handler invocations performed. -/
def drain {M : Type} :
    List (M × Option Nat) → Bool → Option Err × List (ThreadAction M)
  | [], true => (some .receiveErr, [])
  | [], false => (none, [])
  | (m, some c) :: _, _ => (some (.handler c), [.handled m])
  | (m, none) :: rest, rf =>
      let p := drain rest rf
      (p.1, .handled m :: p.2)

theorem drain_all_ok {M : Type} (msgs : List (M × Option Nat))
    (h : ∀ p ∈ msgs, p.2 = none) :
    drain msgs false = (none, msgs.map (fun p => .handled p.1)) := by
  induction msgs with
  | nil => rfl
  | cons q rest ih =>
      rcases q with ⟨m, o⟩
      have hq : o = none := h (m, o) (List.mem_cons_self _ _)
      subst hq
      have := ih (fun p hp => h p (List.mem_cons_of_mem _ hp))
      simp [drain, this]

theorem drain_recv_fail {M : Type} (msgs : List (M × Option Nat))
    (h : ∀ p ∈ msgs, p.2 = none) :
    drain msgs true =
      (some .receiveErr, msgs.map (fun p => .handled p.1)) := by
  induction msgs with
  | nil => rfl
  | cons q rest ih =>
      rcases q with ⟨m, o⟩
      have hq : o = none := h (m, o) (List.mem_cons_self _ _)
      subst hq
      have := ih (fun p hp => h p (List.mem_cons_of_mem _ hp))
      simp [drain, this]

theorem drain_handler_err {M : Type} (pre post : List (M × Option Nat))
    (m : M) (code : Nat) (h : ∀ p ∈ pre, p.2 = none) :
    drain (pre ++ (m, some code) :: post) rf =
      (some (.handler code),
        pre.map (fun p => .handled p.1) ++ [.handled m]) := by
  induction pre with
  | nil => rfl
  | cons q rest ih =>
      rcases q with ⟨m2, o⟩
      have hq : o = none := h (m2, o) (List.mem_cons_self _ _)
      subst hq
      have := ih (fun p hp => h p (List.mem_cons_of_mem _ hp))
      simp [drain, this]

/-- The subscriber loop (src/ipc/src/single_process.rs lines
194-213): while the liveness flag holds and the 200 ms
`timed_wait_all` succeeds (its callback clearing the flag on a
`REPLACE_EVENT`), drain the data channel completely; on exit drop
the subscriber end. Evaluates to `none` when the supplied cycle
oracle is exhausted with the loop still running, otherwise to the
closure result and the performed actions. -/
def subscribe_loop {M : Type} :
    Bool → List (Cycle M) →
      Option (Except Err Unit × List (ThreadAction M))
  | false, _ => some (.ok (), [.droppedSubscriber])
  | true, [] => none
  | true, c :: rest =>
    match c.wait with
    | none => some (.ok (), [.waited, .droppedSubscriber])
    | some evs =>
      match drain c.msgs c.recvFail with
      | (some e, tr) =>
          some (.error e, .waited :: (tr ++ [.droppedSubscriber]))
      | (none, tr) =>
          (subscribe_loop (applyEvents true evs) rest).map
            (fun p => (p.1, .waited :: (tr ++ p.2)))

/-- Oracle for one run of the thread body of
`create_subscriber_thread` (src/ipc/src/single_process.rs lines
188-225). -/
structure SubscriberThreadRun (M : Type) where
  /-- `event_service.listener_builder().create()` succeeded. -/
  listenerCreate : Bool
  /-- The wake cycles the transport produces. -/
  cycles : List (Cycle M)

/-- The thread body of `create_subscriber_thread`: run
`receive_messages` (listener creation then the subscriber loop), log
any error, and unconditionally store false into the liveness flag
before the thread ends. The final component is the flag value after
the thread completed. -/
def run_subscriber_thread {M : Type} (run : SubscriberThreadRun M) :
    Option (Except Err Unit × List (ThreadAction M) × Bool) :=
  if run.listenerCreate = false then
    some (.error .listenerCreate, [.droppedSubscriber], false)
  else
    (subscribe_loop true run.cycles).map (fun p => (p.1, p.2, false))

/-- `SubscriberHandle::is_closed` (src/ipc/src/single_process.rs
lines 61-67): true when the weak reference no longer upgrades, and
otherwise the negation of the flag value. -/
def is_closed (strongAlive flag : Bool) : Bool :=
  if strongAlive then !flag else true

/-- `SubscriberHandle::close` (src/ipc/src/single_process.rs lines
70-74): store false when the strong reference is still alive,
otherwise leave the (gone) flag as is. Returns the new flag value
seen by the loop when it still exists. -/
def close (strongAlive flag : Bool) : Bool :=
  if strongAlive then false else flag

/-- C5: when a Replace signal is observed during a wait, the
subscriber loop clears the liveness flag, completes the drain of the
current wake cycle (handler invoked once per pending message), and
terminates without entering another wait, dropping the subscriber
end of the data channel; the remaining cycles are never consumed and
the flag ends false. -/
theorem replace_event_terminates_loop {M : Type} (c : Cycle M)
    (rest : List (Cycle M)) (evs : List Nat)
    (hw : c.wait = some evs) (hr : REPLACE_EVENT ∈ evs)
    (hmsgs : ∀ p ∈ c.msgs, p.2 = none) (hrf : c.recvFail = false) :
    run_subscriber_thread ⟨true, c :: rest⟩ =
      some (.ok (),
        .waited ::
          (c.msgs.map (fun p => .handled p.1) ++ [.droppedSubscriber]),
        false) := by
  simp only [run_subscriber_thread, if_neg (by simp : ¬(true = false))]
  simp only [subscribe_loop, hw, hrf, drain_all_ok c.msgs hmsgs,
    applyEvents_true, if_pos hr]
  rfl

theorem replace_event_terminates_loop_witness :
    run_subscriber_thread
        (⟨true, [⟨some [NOTIFY_EVENT, REPLACE_EVENT],
            [(5, none), (6, none)], false⟩,
          ⟨some [], [], false⟩]⟩ : SubscriberThreadRun Nat) =
      some (.ok (),
        .waited :: ([.handled 5, .handled 6] ++ [.droppedSubscriber]),
        false) := by
  have h := replace_event_terminates_loop
    (⟨some [NOTIFY_EVENT, REPLACE_EVENT], [(5, none), (6, none)],
      false⟩ : Cycle Nat)
    [⟨some [], [], false⟩] [NOTIFY_EVENT, REPLACE_EVENT]
    rfl (by simp) (by decide) rfl
  simpa using h

/-- C10: a handler error terminates the subscriber loop at once (the
error is confined to the thread), the liveness flag ends false so
`is_closed` reports true, and the shutdown shape is the same as for
a transport-level receive failure: the loop ends with that error,
handler invocations stop, the subscriber end is dropped, and the
flag is false. -/
theorem handler_error_closes_loop {M : Type} (c c2 : Cycle M)
    (rest rest2 : List (Cycle M)) (evs evs2 : List Nat)
    (pre post : List (M × Option Nat)) (m : M) (code : Nat)
    (hw : c.wait = some evs)
    (hm : c.msgs = pre ++ (m, some code) :: post)
    (hpre : ∀ p ∈ pre, p.2 = none)
    (hw2 : c2.wait = some evs2)
    (hm2 : ∀ p ∈ c2.msgs, p.2 = none)
    (hrf2 : c2.recvFail = true) :
    run_subscriber_thread ⟨true, c :: rest⟩ =
      some (.error (.handler code),
        .waited ::
          ((pre.map (fun p => .handled p.1) ++ [.handled m]) ++
            [.droppedSubscriber]),
        false) ∧
      is_closed false false = true ∧
      run_subscriber_thread ⟨true, c2 :: rest2⟩ =
        some (.error .receiveErr,
          .waited ::
            (c2.msgs.map (fun p => .handled p.1) ++
              [.droppedSubscriber]),
          false) := by
  refine ⟨?_, rfl, ?_⟩
  · simp only [run_subscriber_thread, if_neg (by simp : ¬(true = false))]
    simp only [subscribe_loop, hw, hm, drain_handler_err pre post m code hpre]
    rfl
  · simp only [run_subscriber_thread, if_neg (by simp : ¬(true = false))]
    simp only [subscribe_loop, hw2, hrf2, drain_recv_fail c2.msgs hm2]
    rfl

theorem handler_error_closes_loop_witness :
    run_subscriber_thread
        (⟨true, [⟨some [NOTIFY_EVENT], [(4, none), (5, some 9)], false⟩]⟩ :
          SubscriberThreadRun Nat) =
      some (.error (.handler 9),
        .waited :: (([.handled 4] ++ [.handled 5]) ++ [.droppedSubscriber]),
        false) :=
  (handler_error_closes_loop
    (⟨some [NOTIFY_EVENT], [(4, none), (5, some 9)], false⟩ : Cycle Nat)
    (⟨some [], [], true⟩ : Cycle Nat) [] [] [NOTIFY_EVENT] []
    [(4, none)] [] 5 9 rfl rfl (by decide) rfl (by decide) rfl).1

/-- Oracle for one iteration of the replace/acquire loop of
`subscribe_only_` (src/ipc/src/single_process.rs lines 325-344):
whether `notifier.notify()` succeeded, whether `node.wait` succeeded,
the unit-interval draw `u` of `rand::random_range(0.0..=max_sleep)`
(the requested sleep is `u * max_sleep`), the value `Instant::now()`
yields at the timeout check, and the outcome of the subscriber-slot
creation attempt. -/
structure AcquireIter where
  /-- `notifier.notify()` succeeded. -/
  notifyOk : Bool
  /-- `node.wait(...)` succeeded. -/
  waitOk : Bool
  /-- Unit-interval position of the random draw. -/
  u : ℚ
  /-- `Instant::now()` at the check after a failed creation. -/
  now : ℚ
  /-- `service.subscriber_builder().create()` outcome. -/
  create : SubCreateRes

/-- The replace/acquire loop of `subscribe_only_`
(src/ipc/src/single_process.rs lines 319-344): each iteration first
doubles `max_sleep` capping it at 0.1 s, sends a Replace signal
(failure is a hard error), sleeps a random duration in
`[0, max_sleep]` (wait failure is a hard error), then re-attempts
subscriber-slot creation; success returns, an occupied slot checks
`Instant::now() > timeout_instant` and either fails with the
distinguished timeout error carrying the configured timeout or
loops, and any other creation error is surfaced. The second
component lists the `(bound, requested sleep)` pair of every
iteration that reached the sleep. `none` means the iteration oracle
was exhausted with the loop still running. -/
def acquire_loop (t0 timeout : ℚ) :
    ℚ → List AcquireIter → Option (Except Err Unit) × List (ℚ × ℚ)
  | _, [] => (none, [])
  | maxSleep, it :: rest =>
    let ms := min (1/10 : ℚ) (maxSleep * 2)
    if it.notifyOk = false then (some (.error .notifierNotify), [])
    else
      let sleep := it.u * ms
      if it.waitOk = false then (some (.error .nodeWait), [(ms, sleep)])
      else
        match it.create with
        | .ok => (some (.ok ()), [(ms, sleep)])
        | .otherFail =>
            (some (.error .subscriberCreateOther), [(ms, sleep)])
        | .occupied =>
          if t0 + timeout < it.now then
            (some (.error (.subscribeOnlyTimeout timeout)), [(ms, sleep)])
          else
            let p := acquire_loop t0 timeout ms rest
            (p.1, (ms, sleep) :: p.2)

/-- An iteration that keeps the replace/acquire loop going: signal
and wait succeed, the slot is still occupied, and the clock reading
at the check does not exceed the deadline. -/
def iterContinues (t0 timeout : ℚ) (it : AcquireIter) : Prop :=
  it.notifyOk = true ∧ it.waitOk = true ∧ it.create = .occupied ∧
    it.now ≤ t0 + timeout

/-- An iteration at which the loop raises the timeout error: signal
and wait succeed, the slot is still occupied, and the clock reading
at the check exceeds the deadline. -/
def timesOutAt (t0 timeout : ℚ) (it : AcquireIter) : Prop :=
  it.notifyOk = true ∧ it.waitOk = true ∧ it.create = .occupied ∧
    t0 + timeout < it.now

theorem cons_decomp {α : Type} {it y : α} {rest pre post : List α}
    (heq : it :: rest = pre ++ y :: post) :
    (pre = [] ∧ y = it ∧ post = rest) ∨
      ∃ pre2, pre = it :: pre2 ∧ rest = pre2 ++ y :: post := by
  cases pre with
  | nil => simp_all
  | cons z pre2 =>
      simp only [List.cons_append, List.cons.injEq] at heq
      exact .inr ⟨pre2, by rw [heq.1], heq.2⟩

/-- C2: the replace/acquire loop returns the distinguished timeout
error, carrying exactly the configured timeout, precisely when some
iteration finds the slot still occupied and a clock reading past the
deadline at the check after its wait while every earlier iteration
signalled, waited and found the slot occupied within the deadline;
and a subscriber-creation error other than slot-occupied at any
reached iteration aborts the loop immediately with that error. -/
theorem acquire_loop_timeout_iff (t0 timeout ms : ℚ)
    (iters : List AcquireIter) (q : ℚ) :
    ((acquire_loop t0 timeout ms iters).1 =
        some (.error (.subscribeOnlyTimeout q)) ↔
      q = timeout ∧ ∃ pre it post, iters = pre ++ it :: post ∧
        (∀ x ∈ pre, iterContinues t0 timeout x) ∧
          timesOutAt t0 timeout it) ∧
    (∀ pre it post, iters = pre ++ it :: post →
      (∀ x ∈ pre, iterContinues t0 timeout x) →
      it.notifyOk = true → it.waitOk = true → it.create = .otherFail →
      (acquire_loop t0 timeout ms iters).1 =
        some (.error .subscriberCreateOther)) := by
  induction iters generalizing ms with
  | nil =>
      refine ⟨⟨fun h => ?_, ?_⟩, ?_⟩
      · simp [acquire_loop] at h
      · rintro ⟨hq, pre, it, post, heq, -, -⟩
        cases pre <;> simp at heq
      · rintro pre it post heq - - - -
        cases pre <;> simp at heq
  | cons it rest ih =>
      cases hno : it.notifyOk with
      | false =>
          refine ⟨⟨fun h => ?_, ?_⟩, ?_⟩
          · simp [acquire_loop, hno] at h
          · rintro ⟨hq, pre, it2, post, heq, hpre, hto⟩
            rcases cons_decomp heq with ⟨hp, hy, hpost⟩ | ⟨pre2, hp, hrest⟩
            · exact absurd (hy ▸ hto.1) (by simp [hno])
            · have hc := hpre it (by rw [hp]; exact List.mem_cons_self _ _)
              exact absurd hc.1 (by simp [hno])
          · rintro pre it2 post heq hpre hn2 hw2 hc2
            rcases cons_decomp heq with ⟨hp, hy, hpost⟩ | ⟨pre2, hp, hrest⟩
            · exact absurd (hy ▸ hn2) (by simp [hno])
            · have hc := hpre it (by rw [hp]; exact List.mem_cons_self _ _)
              exact absurd hc.1 (by simp [hno])
      | true =>
        cases hwa : it.waitOk with
        | false =>
            refine ⟨⟨fun h => ?_, ?_⟩, ?_⟩
            · simp [acquire_loop, hno, hwa] at h
            · rintro ⟨hq, pre, it2, post, heq, hpre, hto⟩
              rcases cons_decomp heq with ⟨hp, hy, hpost⟩ | ⟨pre2, hp, hrest⟩
              · exact absurd (hy ▸ hto.2.1) (by simp [hwa])
              · have hc := hpre it (by rw [hp]; exact List.mem_cons_self _ _)
                exact absurd hc.2.1 (by simp [hwa])
            · rintro pre it2 post heq hpre hn2 hw2 hc2
              rcases cons_decomp heq with ⟨hp, hy, hpost⟩ | ⟨pre2, hp, hrest⟩
              · exact absurd (hy ▸ hw2) (by simp [hwa])
              · have hc := hpre it (by rw [hp]; exact List.mem_cons_self _ _)
                exact absurd hc.2.1 (by simp [hwa])
        | true =>
          cases hcr : it.create with
          | ok =>
              refine ⟨⟨fun h => ?_, ?_⟩, ?_⟩
              · simp [acquire_loop, hno, hwa, hcr] at h
              · rintro ⟨hq, pre, it2, post, heq, hpre, hto⟩
                rcases cons_decomp heq with ⟨hp, hy, hpost⟩ | ⟨pre2, hp, hrest⟩
                · exact absurd (hy ▸ hto.2.2.1) (by simp [hcr])
                · have hc := hpre it (by rw [hp]; exact List.mem_cons_self _ _)
                  exact absurd hc.2.2.1 (by simp [hcr])
              · rintro pre it2 post heq hpre hn2 hw2 hc2
                rcases cons_decomp heq with ⟨hp, hy, hpost⟩ | ⟨pre2, hp, hrest⟩
                · exact absurd (hy ▸ hc2) (by simp [hcr])
                · have hc := hpre it (by rw [hp]; exact List.mem_cons_self _ _)
                  exact absurd hc.2.2.1 (by simp [hcr])
          | otherFail =>
              refine ⟨⟨fun h => ?_, ?_⟩, ?_⟩
              · simp [acquire_loop, hno, hwa, hcr] at h
              · rintro ⟨hq, pre, it2, post, heq, hpre, hto⟩
                rcases cons_decomp heq with ⟨hp, hy, hpost⟩ | ⟨pre2, hp, hrest⟩
                · exact absurd (hy ▸ hto.2.2.1) (by simp [hcr])
                · have hc := hpre it (by rw [hp]; exact List.mem_cons_self _ _)
                  exact absurd hc.2.2.1 (by simp [hcr])
              · rintro pre it2 post heq hpre hn2 hw2 hc2
                simp [acquire_loop, hno, hwa, hcr]
          | occupied =>
            by_cases hnow : t0 + timeout < it.now
            · refine ⟨⟨fun h => ?_, ?_⟩, ?_⟩
              · simp [acquire_loop, hno, hwa, hcr, hnow] at h
                exact ⟨h.symm, [], it, rest, rfl, by simp,
                  hno, hwa, hcr, hnow⟩
              · rintro ⟨hq, -⟩
                simp [acquire_loop, hno, hwa, hcr, hnow, hq]
              · rintro pre it2 post heq hpre hn2 hw2 hc2
                rcases cons_decomp heq with ⟨hp, hy, hpost⟩ | ⟨pre2, hp, hrest⟩
                · exact absurd (hy ▸ hc2) (by simp [hcr])
                · have hc := hpre it (by rw [hp]; exact List.mem_cons_self _ _)
                  exact absurd hnow (not_lt.mpr hc.2.2.2)
            · have hstep : (acquire_loop t0 timeout ms (it :: rest)).1 =
                  (acquire_loop t0 timeout (min (1/10 : ℚ) (ms * 2)) rest).1 := by
                simp [acquire_loop, hno, hwa, hcr, hnow]
              refine ⟨⟨fun h => ?_, ?_⟩, ?_⟩
              · rw [hstep] at h
                obtain ⟨hq, pre, it2, post, heq, hpre, hto⟩ :=
                  (ih (min (1/10 : ℚ) (ms * 2))).1.mp h
                refine ⟨hq, it :: pre, it2, post, by rw [heq]; rfl, ?_, hto⟩
                intro x hx
                rcases List.mem_cons.mp hx with hx | hx
                · exact hx ▸ ⟨hno, hwa, hcr, le_of_not_lt hnow⟩
                · exact hpre x hx
              · rintro ⟨hq, pre, it2, post, heq, hpre, hto⟩
                rw [hstep]
                rcases cons_decomp heq with ⟨hp, hy, hpost⟩ | ⟨pre2, hp, hrest⟩
                · exact absurd (hy ▸ hto.2.2.2) hnow
                · refine (ih (min (1/10 : ℚ) (ms * 2))).1.mpr
                    ⟨hq, pre2, it2, post, hrest, ?_, hto⟩
                  intro x hx
                  exact hpre x (by rw [hp]; exact List.mem_cons_of_mem _ hx)
              · rintro pre it2 post heq hpre hn2 hw2 hc2
                rcases cons_decomp heq with ⟨hp, hy, hpost⟩ | ⟨pre2, hp, hrest⟩
                · exact absurd (hy ▸ hc2) (by simp [hcr])
                · rw [hstep]
                  refine (ih (min (1/10 : ℚ) (ms * 2))).2 pre2 it2 post
                    hrest ?_ hn2 hw2 hc2
                  intro x hx
                  exact hpre x (by rw [hp]; exact List.mem_cons_of_mem _ hx)

theorem acquire_loop_timeout_iff_witness :
    (acquire_loop 0 1 (2/1000)
        [⟨true, true, 0, 1/2, .occupied⟩, ⟨true, true, 0, 2, .occupied⟩]).1 =
      some (.error (.subscribeOnlyTimeout 1)) :=
  (acquire_loop_timeout_iff 0 1 (2/1000)
      [⟨true, true, 0, 1/2, .occupied⟩, ⟨true, true, 0, 2, .occupied⟩]
      1).1.mpr
    ⟨rfl, [⟨true, true, 0, 1/2, .occupied⟩], ⟨true, true, 0, 2, .occupied⟩,
      [], rfl,
      by
        intro x hx
        simp at hx
        subst hx
        exact ⟨rfl, rfl, rfl, by norm_num⟩,
      rfl, rfl, rfl, by norm_num⟩

/-- The sleep bound of iteration `k` of the replace/acquire loop
when the loop is entered with state `m`: the source updates
`max_sleep = (0.1).min(max_sleep * 2.0)` at the top of each
iteration, before the wait. -/
def backoffFrom (m : ℚ) : Nat → ℚ
  | 0 => min (1/10) (m * 2)
  | k+1 => backoffFrom (min (1/10) (m * 2)) k

theorem backoffFrom_succ (m : ℚ) (k : Nat) :
    backoffFrom m (k+1) = min (1/10) (backoffFrom m k * 2) := by
  induction k generalizing m with
  | zero => rfl
  | succ k ih =>
      show backoffFrom (min (1/10) (m * 2)) (k+1) =
        min (1/10) (backoffFrom (min (1/10) (m * 2)) k * 2)
      exact ih (min (1/10) (m * 2))

theorem backoffFrom_le_cap (m : ℚ) (k : Nat) :
    backoffFrom m k ≤ 1/10 := by
  induction k generalizing m with
  | zero => exact min_le_left _ _
  | succ k ih => exact ih (min (1/10) (m * 2))

theorem backoffFrom_nonneg (m : ℚ) (hm : 0 ≤ m) (k : Nat) :
    0 ≤ backoffFrom m k := by
  induction k generalizing m with
  | zero =>
      refine le_min (by norm_num) ?_
      positivity
  | succ k ih =>
      refine ih (min (1/10) (m * 2)) ?_
      refine le_min (by norm_num) ?_
      positivity

/-- Sleep-trace characterization: if the loop is entered with state
`m` and every iteration before `k` continues, then iteration `k`,
when its Replace signal succeeds, requests a sleep of
`u * backoffFrom m k` under the bound `backoffFrom m k`. -/
theorem acquire_loop_sleeps (t0 timeout : ℚ) (k : Nat) :
    ∀ (m : ℚ) (iters : List AcquireIter) (it : AcquireIter),
      (∀ x ∈ iters.take k, iterContinues t0 timeout x) →
      iters.get? k = some it → it.notifyOk = true →
      (acquire_loop t0 timeout m iters).2.get? k =
        some (backoffFrom m k, it.u * backoffFrom m k) := by
  induction k with
  | zero =>
      intro m iters it hpre hit hn
      cases iters with
      | nil => simp at hit
      | cons a rest =>
          simp only [List.get?_cons_zero, Option.some.injEq] at hit
          subst hit
          cases hwa : a.waitOk with
          | false => simp [acquire_loop, hn, hwa, backoffFrom]
          | true =>
            cases hcr : a.create with
            | ok => simp [acquire_loop, hn, hwa, hcr, backoffFrom]
            | otherFail => simp [acquire_loop, hn, hwa, hcr, backoffFrom]
            | occupied =>
                by_cases hnow : t0 + timeout < a.now
                · simp [acquire_loop, hn, hwa, hcr, hnow, backoffFrom]
                · simp [acquire_loop, hn, hwa, hcr, hnow, backoffFrom]
  | succ k ih =>
      intro m iters it hpre hit hn
      cases iters with
      | nil => simp at hit
      | cons a rest =>
          have ha : iterContinues t0 timeout a := by
            refine hpre a ?_
            rw [List.take_succ_cons]
            exact List.mem_cons_self _ _
          have hstep :
              (acquire_loop t0 timeout m (a :: rest)).2 =
                (min (1/10 : ℚ) (m * 2), a.u * min (1/10 : ℚ) (m * 2)) ::
                  (acquire_loop t0 timeout (min (1/10 : ℚ) (m * 2)) rest).2 := by
            have h1 := ha.1
            have h2 := ha.2.1
            have h3 := ha.2.2.1
            have h4 := not_lt.mpr ha.2.2.2
            simp [acquire_loop, h1, h2, h3, h4]
          rw [hstep]
          simp only [List.get?_cons_succ]
          have hpre2 : ∀ x ∈ rest.take k, iterContinues t0 timeout x := by
            intro x hx
            refine hpre x ?_
            rw [List.take_succ_cons]
            exact List.mem_cons_of_mem _ hx
          have hit2 : rest.get? k = some it := by
            simpa using hit
          exact ih (min (1/10 : ℚ) (m * 2)) rest it hpre2 hit2 hn

/-- C3 counterexample: with a full-range draw (`u = 1`) the first
iteration of the replace/acquire loop requests a 4 ms sleep, because
the bound is doubled before the first wait; the claim that the first
wait is bounded by 2 ms is false. -/
theorem acquire_loop_first_sleep_exceeds_2ms :
    (acquire_loop 0 1 (2/1000) [⟨true, true, 1, 0, .occupied⟩]).2 =
        [(1/250, 1/250)] ∧
      ¬((1/250 : ℚ) ≤ 2/1000) := by
  constructor
  · show (acquire_loop 0 1 (2/1000) [⟨true, true, 1, 0, .occupied⟩]).2 =
      [(1/250, 1/250)]
    norm_num [acquire_loop]
  · norm_num

/-- C3 amended: each loop iteration `k` that is reached waits a
duration `u * b k` lying in `[0, b k]` for a unit draw `u`, where
the bound `b k = backoffFrom (2/1000) k` starts from the 2 ms seed
but is doubled at the top of each iteration before the wait (so the
first wait is bounded by 4 ms, not 2 ms), doubles each iteration and
is capped at 100 ms. -/
theorem acquire_loop_backoff (t0 timeout : ℚ) (iters : List AcquireIter)
    (k : Nat) (it : AcquireIter)
    (hpre : ∀ x ∈ iters.take k, iterContinues t0 timeout x)
    (hit : iters.get? k = some it) (hn : it.notifyOk = true) :
    (acquire_loop t0 timeout (2/1000) iters).2.get? k =
        some (backoffFrom (2/1000) k, it.u * backoffFrom (2/1000) k) ∧
      (0 ≤ it.u → it.u ≤ 1 →
        0 ≤ it.u * backoffFrom (2/1000) k ∧
          it.u * backoffFrom (2/1000) k ≤ backoffFrom (2/1000) k) ∧
      backoffFrom (2/1000) 0 = 1/250 ∧
      (∀ j : Nat, backoffFrom (2/1000) (j+1) =
        min (1/10) (backoffFrom (2/1000) j * 2)) ∧
      backoffFrom (2/1000) k ≤ 1/10 := by
  have hb0 : (0 : ℚ) ≤ 2/1000 := by norm_num
  have hbk := backoffFrom_nonneg (2/1000) hb0 k
  refine ⟨acquire_loop_sleeps t0 timeout k (2/1000) iters it hpre hit hn,
    ?_, by norm_num [backoffFrom], fun j => backoffFrom_succ (2/1000) j,
    backoffFrom_le_cap (2/1000) k⟩
  intro hu0 hu1
  constructor
  · exact mul_nonneg hu0 hbk
  · calc it.u * backoffFrom (2/1000) k ≤ 1 * backoffFrom (2/1000) k :=
        mul_le_mul_of_nonneg_right hu1 hbk
    _ = backoffFrom (2/1000) k := one_mul _

theorem acquire_loop_backoff_witness :
    (acquire_loop 0 1 (2/1000)
        [⟨true, true, 1/2, 0, .occupied⟩]).2.get? 0 =
      some (backoffFrom (2/1000) 0,
        (⟨true, true, 1/2, 0, .occupied⟩ : AcquireIter).u *
          backoffFrom (2/1000) 0) :=
  (acquire_loop_backoff 0 1 [⟨true, true, 1/2, 0, .occupied⟩] 0
    ⟨true, true, 1/2, 0, .occupied⟩ (by simp) rfl rfl).1

/-- A failed `node.wait` inside the replace/acquire loop is
propagated with the question-mark operator
(src/ipc/src/single_process.rs lines 328-330): the loop aborts with
the wait error. -/
theorem acquire_loop_wait_failure (t0 timeout : ℚ) :
    ∀ (pre : List AcquireIter) (m : ℚ) (it : AcquireIter)
      (post : List AcquireIter),
      (∀ x ∈ pre, iterContinues t0 timeout x) →
      it.notifyOk = true → it.waitOk = false →
      (acquire_loop t0 timeout m (pre ++ it :: post)).1 =
        some (.error .nodeWait) := by
  intro pre
  induction pre with
  | nil =>
      intro m it post hpre hn hw
      simp [acquire_loop, hn, hw]
  | cons a pre2 ih =>
      intro m it post hpre hn hw
      have ha : iterContinues t0 timeout a :=
        hpre a (List.mem_cons_self _ _)
      have h1 := ha.1
      have h2 := ha.2.1
      have h3 := ha.2.2.1
      have h4 := not_lt.mpr ha.2.2.2
      have hrec := ih (min (1/10 : ℚ) (m * 2)) it post
        (fun x hx => hpre x (List.mem_cons_of_mem _ hx)) hn hw
      simpa [acquire_loop, h1, h2, h3, h4] using hrec

/-- Oracle for one run of `subscribe_only_`
(src/ipc/src/single_process.rs lines 278-348), in call order. -/
structure SubscribeOnlyRun where
  /-- `NodeName::new(node_name)` succeeded. -/
  nodeNameOk : Bool
  /-- `ServiceName::new(service_name)` succeeded. -/
  serviceNameOk : Bool
  /-- `build_node` succeeded. -/
  nodeCreateOk : Bool
  /-- The two `build_serice_` attempts inside `build_service`. -/
  svc : BuildServiceRun
  /-- `build_event_service` succeeded. -/
  eventSvcOk : Bool
  /-- The initial `service.subscriber_builder().create()`. -/
  subCreate : SubCreateRes
  /-- `std::thread::Builder::spawn` inside
  `create_subscriber_thread` succeeded. -/
  spawnOk : Bool
  /-- The `REPLACE_EVENT` notifier creation before the loop
  succeeded. -/
  replNotifierCreateOk : Bool
  /-- `Instant::now()` at loop entry. -/
  t0 : ℚ
  /-- The configured timeout in seconds. -/
  timeout : ℚ
  /-- The replace/acquire loop iteration oracles. -/
  iters : List AcquireIter

/-- `subscribe_only_` (src/ipc/src/single_process.rs lines 278-348):
validate the names, build node, data service and event service,
attempt subscriber-slot creation; on success spawn the subscriber
thread; on an occupied slot create the Replace notifier and run the
replace/acquire loop with `max_sleep` seeded at 0.002 s; any other
creation error is surfaced. `none` means the loop oracle was
exhausted with the loop still running. -/
def subscribe_only_ (run : SubscribeOnlyRun) :
    Option (Except Err Unit) :=
  if run.nodeNameOk = false then some (.error .semanticString)
  else if run.serviceNameOk = false then some (.error .serviceNameErr)
  else if run.nodeCreateOk = false then some (.error .nodeCreation)
  else
    match (build_service run.svc).1 with
    | .error k => some (.error (.pubSubOpenOrCreate k))
    | .ok _ =>
      if run.eventSvcOk = false then some (.error .eventOpenOrCreate)
      else
        match run.subCreate with
        | .ok => some (if run.spawnOk then .ok () else .error .ioErr)
        | .otherFail => some (.error .subscriberCreateOther)
        | .occupied =>
          if run.replNotifierCreateOk = false then
            some (.error .notifierCreate)
          else
            match (acquire_loop run.t0 run.timeout (2/1000) run.iters).1 with
            | none => none
            | some (.ok _) =>
                some (if run.spawnOk then .ok () else .error .ioErr)
            | some (.error e) => some (.error e)

/-- C7 counterexample: a run of `subscribe_only_` that reaches the
replace/acquire loop and whose only failing call is the post-signal
`node.wait` returns that wait failure as an error, contradicting the
claim that an advisory-wait failure is never escalated to the
caller. -/
theorem subscribe_only_wait_failure_escalates :
    subscribe_only_
        ⟨true, true, true, ⟨.ok (), .ok ()⟩, true, .occupied,
          true, true, 0, 1, [⟨true, false, 0, 0, .occupied⟩]⟩ =
      some (.error .nodeWait) := by
  simp [subscribe_only_, build_service, acquire_loop]

/-- C7 amended: the post-publish settle wait of `publish_input` is
advisory — its failure is logged and the publish still returns
success — but the post-signal wait of the replace/acquire loop is
not: its failure is propagated with the question-mark operator and
the enclosing operation returns the wait error. -/
theorem advisory_wait_split {M : Type} (pub : PublishRun M) (msg : M)
    (hpc : pub.publisherCreate = .ok ())
    (hnc : pub.notifierCreate = .ok ())
    (hlo : pub.loan = .ok ()) (hin : pub.input = .ok msg)
    (hsd : pub.send = .ok ()) (hwf : pub.waitOk = false)
    (t0 timeout m : ℚ) (pre post : List AcquireIter) (it : AcquireIter)
    (hpre : ∀ x ∈ pre, iterContinues t0 timeout x)
    (hn : it.notifyOk = true) (hw : it.waitOk = false) :
    (publish_input pub).result = .ok () ∧
      (acquire_loop t0 timeout m (pre ++ it :: post)).1 =
        some (.error .nodeWait) := by
  constructor
  · rw [publish_input_success_after_send pub msg hpc hnc hlo hin hsd]
  · exact acquire_loop_wait_failure t0 timeout pre m it post hpre hn hw

theorem advisory_wait_split_witness :
    (publish_input
          (⟨.ok (), .ok (), .ok (), .ok 1, .ok (), true, false⟩ :
            PublishRun Nat)).result = .ok () ∧
      (acquire_loop 0 1 (2/1000)
          ([] ++ ⟨true, false, 0, 0, .occupied⟩ :: [])).1 =
        some (.error .nodeWait) :=
  advisory_wait_split
    (⟨.ok (), .ok (), .ok (), .ok 1, .ok (), true, false⟩ : PublishRun Nat)
    1 rfl rfl rfl rfl rfl rfl 0 1 (2/1000) [] []
    ⟨true, false, 0, 0, .occupied⟩ (by simp) rfl rfl

end KatalogIpc
